import Mathlib

/-!
Verification development for the bi-service route execution pipeline and
error-normalization protocol.

The definitions below are shallow embeddings of:
  * `Route` (lib/express/route.js): step-chain declaration
    (`addStep`, `main`, `validate`, `catch`, `respondsWith`,
    `acceptsContentType`, `rejectsContentType`) and compilation/execution
    (`build`, the per-request promise chain, `applyCatchList`);
  * the express error handler middleware (lib/middleware/errorHandler.js):
    the recursive classification procedure;
  * `App.prototype.on` (lib/express/app.js): the unknown-error listener
    restriction.

JavaScript mutation is rendered as explicit state passing; the bluebird
promise chain of one in-flight request is rendered as a sequential
interpreter producing a trace of observable events plus a final outcome
(the chain has no internal concurrency: steps of one request run strictly
in order, so the sequential interpreter is faithful).  Promise cancellation
triggered by a returned `Response` is rendered as simply not executing the
remainder of the chain.
-/

namespace BiService

/-- JavaScript-like values flowing through the promise chain of a compiled
route.  `response cb` embeds a `Response` short-circuit object where `cb`
identifies its callback; `raw n` stands for any other object and `undef`
for `undefined` (the fulfillment value of `Promise.resolve()` and of
`noop`). -/
inductive Val where
  | undef
  | response (cb : Nat)
  | raw (n : Nat)
deriving DecidableEq

/-- The `resCandidate instanceof Response` test performed by each link of
the compiled chain. -/
def Val.isResp : Val → Bool
  | .response _ => true
  | _ => false

/-- Modelled from the spec: the RequestError hierarchy
(lib/error/requestError.js, lib/error/serviceError.js,
lib/error/routeError.js are not among the provided sources).  An error
object carries its prototype chain `classes` (most derived constructor
first, ending with "Error"), an HTTP status `code`, a human `msg`, the
"origin" route identifier and request-correlation `uid` (each set exactly
once when the error is first recognized as request-bound), and the
internally preserved `cause` of a coerced unknown error. -/
structure ErrObj where
  classes : List String
  code : Nat
  msg : String
  origin : Option String
  uid : Option Nat
  cause : Option String
deriving DecidableEq

/-- One `(error-filter, handler)` pair appended by `Route.prototype.catch`.
The filter is a constructor reference, rendered as the name of a class; it
matches an error whose prototype chain contains that class (bluebird
`promise.catch(Filter, cb)` semantics, i.e. `err instanceof Filter`).  The
handler receives the error (the source wraps the user callback as
`function(err) { return cb(err, req, res); }`) and either fulfills with a
value or rejects with a new error. -/
structure CatchEntry where
  filter : String
  fn : ErrObj → Except ErrObj Val

/-- One unit of work of a route pipeline: `{name, fn, catch}` as pushed by
the declaration methods.  A step handler is invoked as
`step.fn.call(reqContext, req, res)` — the previous fulfillment value is
*not* passed to it — and either fulfills with a value or rejects with an
error, rendered as a constant `Except`. -/
structure Step where
  name : String
  fn : Except ErrObj Val
  catches : List CatchEntry

/-- Observable events of one in-flight request, in the order they occur:
a step handler was invoked, a catch handler was invoked (with the step
name, the position of the entry in the declaration list and the caught
error), or a `Response` short-circuit callback was invoked
(`resCandidate._fn.call(res)`; the boolean records whether the execution
context was the response wrapper produced by `Response.wrap(res, self)`). -/
inductive EV where
  | stepRan (name : String)
  | catchRan (step : String) (idx : Nat) (e : ErrObj)
  | cbInvoked (cb : Nat) (ctxIsResponseWrapper : Bool)
deriving DecidableEq

/-- Final outcome of one in-flight request: the chain completed with a
fulfillment value, it was short-circuited by a `Response` (remaining work
cancelled), or a failure escaped the whole chain and was forwarded to the
`next` continuation (`promise.catch(next)`), i.e. to the error handler. -/
inductive Outcome where
  | completed (v : Val)
  | shortCircuited
  | failed (e : ErrObj)
deriving DecidableEq

/-- `applyCatchList(promise, req, res, catchList, index)` of
lib/express/route.js: folds the catch entries of one step over the promise,
in declaration order, as `promise = promise.catch(filter, handler)`.
A fulfilled promise passes through untouched; a rejection is intercepted by
the first entry whose filter matches, whose handler produces the new result
to which the remaining entries are applied in turn; a rejection matching no
filter propagates unchanged. -/
def applyCatchList (nm : String) (i : Nat) :
    List CatchEntry → Except ErrObj Val → List EV × Except ErrObj Val
  | [], r => ([], r)
  | _ :: rest, .ok v => applyCatchList nm (i + 1) rest (.ok v)
  | c :: rest, .error e =>
      if c.filter ∈ e.classes then
        (EV.catchRan nm i e :: (applyCatchList nm (i + 1) rest (c.fn e)).1,
         (applyCatchList nm (i + 1) rest (c.fn e)).2)
      else
        applyCatchList nm (i + 1) rest (.error e)

/-- The per-request promise chain constructed by `Route.prototype.build`:
for each step, a then-handler receives the previous fulfillment value
`resCandidate`; if it is a `Response`, its callback is invoked with the
response wrapper as execution context and the remaining chain is cancelled
(`return promise.cancel()` — terminal, no further steps or catch handlers
run); otherwise `step.fn` is invoked.  After each link the step's own
catch list is applied (`applyCatchList`), so it also intercepts rejections
propagating from earlier links.  A failure that escapes the last link is
forwarded to the `next` continuation. -/
def runChain : List Step → Except ErrObj Val → List EV × Outcome
  | [], .ok v => ([], .completed v)
  | [], .error e => ([], .failed e)
  | s :: rest, .error e =>
      ((applyCatchList s.name 0 s.catches (.error e)).1 ++
        (runChain rest (applyCatchList s.name 0 s.catches (.error e)).2).1,
       (runChain rest (applyCatchList s.name 0 s.catches (.error e)).2).2)
  | _ :: _, .ok (.response cb) => ([EV.cbInvoked cb true], .shortCircuited)
  | s :: rest, .ok .undef =>
      (EV.stepRan s.name :: ((applyCatchList s.name 0 s.catches s.fn).1 ++
        (runChain rest (applyCatchList s.name 0 s.catches s.fn).2).1),
       (runChain rest (applyCatchList s.name 0 s.catches s.fn).2).2)
  | s :: rest, .ok (.raw _) =>
      (EV.stepRan s.name :: ((applyCatchList s.name 0 s.catches s.fn).1 ++
        (runChain rest (applyCatchList s.name 0 s.catches s.fn).2).1),
       (runChain rest (applyCatchList s.name 0 s.catches s.fn).2).2)

/-- The RouteError thrown by `Route.prototype.addStep` on a duplicate step
name.  RouteError is a configuration error; it carries no HTTP status of
its own, rendered as code 0. -/
def routeDupErr : ErrObj :=
  ⟨["RouteError", "Error"], 0, "Route`s middleware name must be unique",
   none, none, none⟩

/-- `Route.prototype.addStep(name, fn)`: when `name` is omitted (the source
detects a function in its place) it defaults to `steps.length + 1`;
declaring a name that already exists in the chain throws a RouteError,
otherwise the step is appended with an empty catch list. -/
def Route.addStep (steps : List Step) (name : Option String)
    (f : Except ErrObj Val) : Except ErrObj (List Step) :=
  let nm := name.getD (toString (steps.length + 1))
  if steps.any (fun s => s.name == nm) then
    .error routeDupErr
  else
    .ok (steps ++ [⟨nm, f, []⟩])

/-- `Route.prototype.step` is an alias of `Route.prototype.addStep`. -/
def Route.step (steps : List Step) (name : Option String)
    (f : Except ErrObj Val) : Except ErrObj (List Step) :=
  Route.addStep steps name f

/-- `Route.prototype.main(fn)`: pushes `{name: 'main', fn}` directly onto
the chain.  Note the source performs no duplicate-name check here. -/
def Route.main (steps : List Step) (f : Except ErrObj Val) : List Step :=
  steps ++ [⟨"main", f, []⟩]

/-- `Route.prototype.validate(valDef, dataProp)`: pushes
`{name: 'validator', fn: validatorMiddleware(...), args}` directly onto the
chain (no duplicate-name check), then registers ValidationError via
`respondsWith` (the response-registry effect is modelled separately by
`Route.respondsWith` below).  The synthesized middleware body is an
external validator collaborator, kept abstract as `f`. -/
def Route.validate (steps : List Step) (f : Except ErrObj Val) : List Step :=
  steps ++ [⟨"validator", f, []⟩]

/-- The RouteError thrown by `Route.prototype.catch` when no step has been
declared yet. -/
def routeCatchErr : ErrObj :=
  ⟨["RouteError", "Error"], 0,
   "Can NOT apply a `catch` error handler middleware at this stage",
   none, none, none⟩

/-- `Route.prototype.catch([filter], callback)`: must follow an existing
step (fails with a RouteError otherwise); appends the `(filter, handler)`
pair to the last step's catch list; a missing filter defaults to `Error`,
which matches any error. -/
def Route.addCatch (steps : List Step) (filter : Option String)
    (h : ErrObj → Except ErrObj Val) : Except ErrObj (List Step) :=
  match steps.getLast? with
  | none => .error routeCatchErr
  | some last =>
      .ok (steps.dropLast ++
        [⟨last.name, last.fn, last.catches ++ [⟨filter.getD "Error", h⟩]⟩])

/-- The terminal `noop` function appended by `build` (returns
`undefined`). -/
def noopFn : Except ErrObj Val := (.ok .undef)

/-- The implicit terminal step `{name: 'noop', fn: noop}`. -/
def noopStep : Step := ⟨"noop", noopFn, []⟩

/-- The step-list transformation performed by `Route.prototype.build`:
`var lastStep = this.steps[this.steps.length - 1]; if (lastStep &&
lastStep.name !== 'noop') self.addStep('noop', noop);`.  With an empty
chain `lastStep` is `undefined` and nothing is appended; `addStep` may
itself throw when a non-final step is already named `noop`. -/
def Route.build (steps : List Step) : Except ErrObj (List Step) :=
  match steps.getLast? with
  | none => .ok steps
  | some last =>
      if last.name == "noop" then .ok steps
      else Route.addStep steps (some "noop") noopFn

/-- The RouteError rejected by the compiled callback when the steps list is
empty at invocation time; the source builds the message with a template
literal interpolating the route URL: Route (url) not implemented. -/
def routeNotImplemented (url : String) : ErrObj :=
  ⟨["RouteError", "Error"], 0, "Route " ++ url ++ " not implemented",
   none, none, none⟩

/-- Invocation of the compiled callback returned by `build` on one request:
the response object is wrapped, `req.routeUID` is set, then if
`self.steps` is empty the invocation rejects with the not-implemented
RouteError (forwarded to `next`); otherwise the chain is driven starting
from `Promise.resolve()` (fulfillment value `undefined`). -/
def routeInvoke (url : String) (steps : List Step) : List EV × Outcome :=
  if steps.isEmpty then ([], .failed (routeNotImplemented url))
  else runChain steps (.ok .undef)

/-! ## Response-schema registry (`Route.prototype.respondsWith`) -/

/-- A descriptor passed to `respondsWith`: an Error subclass constructor
(the source detects `descriptor instanceof Function` with an Error
prototype chain and instantiates it, reading `.code` from the instance),
an existing Error instance (reads `.code` directly), or a plain
`Ajv` schema object / registered schema name (status 200). -/
inductive Descriptor where
  | errCtor (code : Nat)
  | errInst (code : Nat)
  | plainSchema (id : Nat)
deriving DecidableEq

/-- The HTTP status a descriptor resolves to: `var code = 200;` overridden
by the `.code` of an Error constructor instance or Error instance. -/
def Descriptor.statusCode : Descriptor → Nat
  | .errCtor c => c
  | .errInst c => c
  | .plainSchema _ => 200

/-- The entry actually stored: `{schema: descriptor}`, where an Error
constructor has been replaced by its instance (`descriptor = new
descriptor`). -/
inductive StoredSchema where
  | errSchema (code : Nat)
  | plain (id : Nat)
deriving DecidableEq

/-- The stored form of a descriptor. -/
def Descriptor.stored : Descriptor → StoredSchema
  | .errCtor c => .errSchema c
  | .errInst c => .errSchema c
  | .plainSchema i => .plain i

/-- Reading `this.description.responses[code]`, where an absent key stands
for `responses[code] || []` (keys of the responses object are unique). -/
def lookupResp : List (Nat × List StoredSchema) → Nat → List StoredSchema
  | [], _ => []
  | (k, v) :: rest, c => if k == c then v else lookupResp rest c

/-- Writing `this.description.responses[code] = l` (assignment to one key
of the responses object; insertion order of new keys preserved). -/
def setResp : List (Nat × List StoredSchema) → Nat → List StoredSchema →
    List (Nat × List StoredSchema)
  | [], c, l => [(c, l)]
  | (k, v) :: rest, c, l =>
      if k == c then (c, l) :: rest else (k, v) :: setResp rest c l

/-- `Route.prototype.respondsWith(descriptor)` acting on
`this.description.responses`: resolve the status code, ensure the entry
list exists, then — only for a non-empty status-200 list —
`responses[code].splice(0, 1, schema)` (replace the single success schema),
otherwise `responses[code].push(schema)` (accumulate error variants). -/
def Route.respondsWith (rs : List (Nat × List StoredSchema))
    (d : Descriptor) : List (Nat × List StoredSchema) :=
  let code := d.statusCode
  let cur := lookupResp rs code
  if code == 200 && cur.length != 0 then
    setResp rs code (d.stored :: cur.drop 1)
  else
    setResp rs code (cur ++ [d.stored])

/-! ## Content-type acceptance (`acceptsContentType` / `rejectsContentType`) -/

/-- The `$reqDataParser` record: `contentTypes` maps each accepted
Content-Type value to its merged parser options (rendered as an
association list with the options collapsed to an opaque payload), and
`mediaTypes` keeps the declaration order. -/
structure ReqDataParser where
  contentTypes : List (String × Nat)
  mediaTypes : List String
deriving DecidableEq

/-- The slice of Route state touched by the content-type methods: the HTTP
method (`this.options.type`), the step-name list (the parser step is pushed
into `this.steps` when first created; `steps` holds the very object
`$reqDataParser`, so later mutations of the parser are visible through the
chain — here the parser data lives in `reqDataParser` and `stepNames`
records the push), and the parser itself (`null` until first use). -/
structure RouteCT where
  method : String
  stepNames : List String
  reqDataParser : Option ReqDataParser
deriving DecidableEq

/-- The `toLowerCase()` applied to the HTTP method before the GET/OPTIONS
test, character by character. -/
def lowerStr (s : String) : String := String.mk (s.data.map Char.toLower)

/-- `Route.prototype.acceptsContentType(type, options, parser)`: a no-op
for GET/OPTIONS methods (no request body); otherwise, on first use the
parser record is created empty and the `content-type-parser` step is
pushed (the subsequent hasOwnProperty test on the fresh empty map is
false, so the type is added immediately — the two phases are folded
here); a type already present is left untouched (first declaration wins),
an absent type is added to both maps. -/
def Route.acceptsContentType (r : RouteCT) (t : String) (o : Nat) : RouteCT :=
  if lowerStr r.method == "get" || lowerStr r.method == "options" then r
  else
    match r.reqDataParser with
    | none =>
        { r with stepNames := r.stepNames ++ ["content-type-parser"],
                 reqDataParser := some ⟨[(t, o)], [t]⟩ }
    | some p =>
        if p.contentTypes.any (fun q => q.1 == t) then r
        else
          { r with
            reqDataParser := some ⟨p.contentTypes ++ [(t, o)], p.mediaTypes ++ [t]⟩ }

/-- Removal of the unique key `t` from the contentTypes object
(`delete this.$reqDataParser.contentTypes[type]`): drops the first pair
with that key (object keys are unique, maintained by the guarded add). -/
def eraseKey : List (String × Nat) → String → List (String × Nat)
  | [], _ => []
  | (k, v) :: rest, t => if k == t then rest else (k, v) :: eraseKey rest t

/-- `Route.prototype.rejectsContentType(type)`: a no-op while no parser
record exists; otherwise deletes the contentTypes key and splices the
first occurrence out of `mediaTypes`.  The parser step itself stays in the
chain. -/
def Route.rejectsContentType (r : RouteCT) (t : String) : RouteCT :=
  match r.reqDataParser with
  | none => r
  | some p =>
      { r with
        reqDataParser := some ⟨eraseKey p.contentTypes t, p.mediaTypes.erase t⟩ }

/-- Whether content type `t` is currently accepted by the route: the
inbound parsing step dispatches on `contentTypes`. -/
def acceptedCT (r : RouteCT) (t : String) : Bool :=
  match r.reqDataParser with
  | none => false
  | some p => p.contentTypes.any (fun q => q.1 == t)

/-- Number of contentTypes pairs carrying key `t` (at most one in any
state reachable through the declaration methods, since the add is guarded
by hasOwnProperty). -/
def ctKeyCount (r : RouteCT) (t : String) : Nat :=
  match r.reqDataParser with
  | none => 0
  | some p => p.contentTypes.countP (fun q => q.1 == t)

/-! ## `App.prototype.on` (lib/express/app.js) -/

/-- `App.prototype.on(event, callback)`: the switch refuses a second
listener for the `unknown-error` event (`listenerCount(event) >= 1`
throws); every other event is forwarded unrestricted to the event-emitter
registration.  The listener table is rendered as the list of event names
that have a listener registered (one entry per registration). -/
def App.on (l : List String) (event : String) :
    Except String (List String) :=
  if event == "unknown-error" then
    if 1 ≤ l.count "unknown-error" then
      .error "You can assign only single listener for the event"
    else .ok (l ++ [event])
  else .ok (l ++ [event])

/-! ## The error handler middleware (lib/middleware/errorHandler.js) -/

/-- The four shapes of a value reaching the error handler: `undefined`,
`null`, an Error-like object (anything with `Error.prototype` in its
prototype chain, including every RequestError), or a plain non-Error value
(a primitive or plain object, whose classes chain never reaches
`Error`). -/
inductive JsVal where
  | undef
  | null
  | errObj (e : ErrObj)
  | plain (tag : Nat)
deriving DecidableEq

/-- Observable side effects of one error-handler invocation, in order:
`err.setOrigin(req.routeUID); err.setUID(req.UID)` (the stamp),
`app.emit('error', err)` and `app.emit('unknown-error', err, cb)`. -/
inductive HEv where
  | stamped (origin : String) (uid : Nat)
  | emittedError (e : ErrObj)
  | emittedUnknown (e : ErrObj)
deriving DecidableEq

/-- Where control ends up after one error-handler invocation: `next()` was
called with no rendering, a response was rendered (`res.status(err.code)`
followed by the `error-response` listener series whose default listener
serializes the error as the JSON body), classification was delegated to
the registered unknown-error hook, or the function fell off the end of its
else-if chain (plain non-Error input) returning `undefined` without
rendering or throwing. -/
inductive HOut where
  | nextCalled
  | rendered (status : Nat) (body : ErrObj)
  | delegatedToUnknownHook
  | fellThrough
deriving DecidableEq

/-- Modelled from the spec: `setOrigin`/`setUID` of RequestError
(lib/error/requestError.js is not among the provided sources) record the
originating route identifier and the request-correlation identifier on the
error. -/
def stampErr (e : ErrObj) (origin : String) (uid : Nat) : ErrObj :=
  { e with origin := some origin, uid := some uid }

/-- The ServiceError the handler builds for a `null` input:
`new ServiceError({message: 'Got error of type NULL in the Error Hanlder
middleware'})` (typo preserved from the source); a ServiceError is the
internal-fault RequestError subtype, HTTP status 500. -/
def nullServiceError : ErrObj :=
  ⟨["ServiceError", "RequestError", "Error"], 500,
   "Got error of type NULL in the Error Hanlder middleware",
   none, none, none⟩

/-- Modelled from the spec: `ServiceError.buildFrom(err)`
(lib/error/serviceError.js is not among the provided sources) coerces an
unrecognized error into an internal-fault RequestError: HTTP status 500,
generic message, original cause preserved internally and never serialized
into the response. -/
def ServiceError.buildFrom (e : ErrObj) : ErrObj :=
  ⟨["ServiceError", "RequestError", "Error"], 500, "Internal Server Error",
   none, none, some e.msg⟩

/-- Termination measure for the recursive classification: `null` needs two
reclassification rounds at most, an unrecognized error one, a recognized
RequestError none. -/
def JsVal.rank : JsVal → Nat
  | .undef => 0
  | .null => 2
  | .errObj e => if "RequestError" ∈ e.classes then 0 else 1
  | .plain _ => 0

/-- The recursive error handler `errorHandler(err, req, res, next)`:
  * `undefined` → `return next()`;
  * `null` → wrap into the ServiceError above and reclassify recursively;
  * `err instanceof RequestError` → if additionally
    `err instanceof ServiceError`, stamp origin and correlation uid and
    emit the `error` event with the stamped error; in every RequestError
    case `res.status(err.code)` then the `error-response` series renders
    the error itself;
  * an object with `Error.prototype` strictly inside its prototype chain
    (`Error.prototype.isPrototypeOf(Object.getPrototypeOf(err))`, i.e. a
    subclass instance, rendered as `"Error"` occurring past the head of
    `classes`) → delegate to the `unknown-error` hook when one is
    registered, else coerce via `ServiceError.buildFrom` and reclassify;
  * a direct `Error` instance → coerce via `buildFrom` and reclassify;
  * anything else → fall off the else-if chain (return `undefined`). -/
def errorHandler (hk : Bool) (ruid : String) (uid : Nat) :
    JsVal → List HEv × HOut
  | .undef => ([], .nextCalled)
  | .null => errorHandler hk ruid uid (.errObj nullServiceError)
  | .errObj e =>
      if hreq : "RequestError" ∈ e.classes then
        if "ServiceError" ∈ e.classes then
          ([HEv.stamped ruid uid, HEv.emittedError (stampErr e ruid uid)],
           .rendered (stampErr e ruid uid).code (stampErr e ruid uid))
        else
          ([], .rendered e.code e)
      else if "Error" ∈ e.classes.drop 1 then
        if hk then ([HEv.emittedUnknown e], .delegatedToUnknownHook)
        else errorHandler hk ruid uid (.errObj (ServiceError.buildFrom e))
      else if "Error" ∈ e.classes then
        errorHandler hk ruid uid (.errObj (ServiceError.buildFrom e))
      else ([], .fellThrough)
  | .plain _ => ([], .fellThrough)
termination_by v => v.rank
decreasing_by
  · simp [JsVal.rank, nullServiceError]
  · simp [JsVal.rank, ServiceError.buildFrom, hreq]
  · simp [JsVal.rank, ServiceError.buildFrom, hreq]

/-- Number of stamp events (`setOrigin`/`setUID` calls) in a trace. -/
def countStamped (evs : List HEv) : Nat :=
  evs.countP (fun ev => match ev with
    | HEv.stamped _ _ => true
    | _ => false)

/-- Number of `Response` callback invocations in a trace. -/
def countCb (evs : List EV) : Nat :=
  evs.countP (fun ev => match ev with
    | EV.cbInvoked _ _ => true
    | _ => false)

/-! ## Shared lemmas about the chain interpreter -/

/-- A step's catch list leaves a fulfilled promise untouched. -/
theorem applyCatchList_ok (nm : String) (i : Nat) (cs : List CatchEntry)
    (v : Val) : applyCatchList nm i cs (.ok v) = ([], .ok v) := by
  induction cs generalizing i with
  | nil => rfl
  | cons c rest ih => simpa [applyCatchList] using ih (i + 1)

/-- A rejection matching no filter of the catch list propagates
unchanged, running no catch handler. -/
theorem applyCatchList_nomatch (nm : String) (i : Nat) (cs : List CatchEntry)
    (e : ErrObj) (h : ∀ c ∈ cs, c.filter ∉ e.classes) :
    applyCatchList nm i cs (.error e) = ([], .error e) := by
  induction cs generalizing i with
  | nil => rfl
  | cons c rest ih =>
      have hc : c.filter ∉ e.classes := h c (by simp)
      simp only [applyCatchList, hc, if_false]
      exact ih (i + 1) fun c2 hc2 => h c2 (List.mem_cons_of_mem _ hc2)

/-- Catch handlers never invoke a `Response` callback themselves: the
events produced by a catch list contain no callback invocation. -/
theorem countCb_applyCatchList (nm : String) (i : Nat) (cs : List CatchEntry)
    (r : Except ErrObj Val) : countCb (applyCatchList nm i cs r).1 = 0 := by
  induction cs generalizing i r with
  | nil => rfl
  | cons c rest ih =>
      cases r with
      | ok v => simpa [applyCatchList] using ih (i + 1) (.ok v)
      | error e =>
          by_cases hm : c.filter ∈ e.classes
          · have h2 := ih (i + 1) (c.fn e)
            simp [applyCatchList, hm, countCb, List.countP_cons] at h2 ⊢
            exact h2
          · simpa [applyCatchList, hm] using ih (i + 1) (.error e)

/-- Across one whole in-flight request, the `Response` short-circuit
callback is invoked at most once (its invocation is terminal). -/
theorem countCb_runChain (steps : List Step) (r : Except ErrObj Val) :
    countCb (runChain steps r).1 ≤ 1 := by
  induction steps generalizing r with
  | nil => cases r <;> simp [runChain, countCb]
  | cons s rest ih =>
      cases r with
      | error e =>
          have h1 := countCb_applyCatchList s.name 0 s.catches (.error e)
          have h2 := ih (applyCatchList s.name 0 s.catches (.error e)).2
          simp only [countCb] at h1 h2
          simp [runChain, countCb, List.countP_append]
          omega
      | ok v =>
          cases v with
          | undef =>
              have h1 := countCb_applyCatchList s.name 0 s.catches s.fn
              have h2 := ih (applyCatchList s.name 0 s.catches s.fn).2
              simp only [countCb] at h1 h2
              simp [runChain, countCb, List.countP_cons, List.countP_append]
              omega
          | raw n =>
              have h1 := countCb_applyCatchList s.name 0 s.catches s.fn
              have h2 := ih (applyCatchList s.name 0 s.catches s.fn).2
              simp only [countCb] at h1 h2
              simp [runChain, countCb, List.countP_cons, List.countP_append]
              omega
          | response cb => simp [runChain, countCb]

/-! ## C5 -/

/-- C5: invoking the compiled callback of a route whose steps list is
empty fails with a not-implemented RouteError whose message names the
route URL; the trace is empty, so no step ran and no success response was
rendered. -/
theorem emptyRoute_notImplemented (url : String) :
    routeInvoke url [] =
      ([], .failed ⟨["RouteError", "Error"], 0,
        "Route " ++ url ++ " not implemented", none, none, none⟩) := rfl

/-! ## C6 -/

/-- C6 counterexample: a route declared with zero steps compiles without
error and without the implicit terminal no-op, so after `build()` the
chain has zero steps — refuting that the chain always contains at least
one step after `build()`. -/
theorem build_empty_counterexample :
    Route.build [] = (.ok [] : Except ErrObj (List Step)) ∧
    List.length ([] : List Step) = 0 := ⟨rfl, rfl⟩

/-- C6 (amended): `build()` appends the implicit terminal no-op step iff
the declared list is non-empty and its last step is not named `noop`; it
leaves an empty list empty (so the compiled chain is non-empty iff at
least one step was declared), and it fails with the duplicate-name
RouteError when a non-final step is already named `noop`. -/
theorem build_noop_amended (pre : List Step) (s : Step) :
    Route.build [] = (.ok [] : Except ErrObj (List Step))
    ∧ (s.name = "noop" → Route.build (pre ++ [s]) = .ok (pre ++ [s]))
    ∧ ((pre ++ [s]).all (fun t => t.name != "noop") = true →
        Route.build (pre ++ [s]) = .ok (pre ++ [s] ++ [noopStep]))
    ∧ (s.name ≠ "noop" → pre.any (fun t => t.name == "noop") = true →
        Route.build (pre ++ [s]) = .error routeDupErr) := by
  refine ⟨rfl, fun h => ?_, fun h => ?_, fun h1 h2 => ?_⟩
  · simp [Route.build, List.getLast?_concat, h]
  · have hs : (s.name == "noop") = false := by
      simpa using List.all_eq_true.mp h s (by simp)
    have hany : (pre ++ [s]).any (fun t => t.name == "noop") = false := by
      rw [List.any_eq_false]
      intro t ht
      simpa using List.all_eq_true.mp h t ht
    simp [Route.build, List.getLast?_concat, hs, Route.addStep, hany,
      noopStep]
  · have hs : (s.name == "noop") = false := by simpa using h1
    have hany : (pre ++ [s]).any (fun t => t.name == "noop") = true := by
      simp [List.any_append, h2]
    simp [Route.build, List.getLast?_concat, hs, Route.addStep, hany]

/-- C6 witness: the amended theorem applied at concrete inputs — a
one-step chain gets the terminal no-op appended, and a chain already
ending in `noop` is left unchanged. -/
theorem build_noop_amended_witness :
    Route.build [⟨"main", noopFn, []⟩] =
      .ok [⟨"main", noopFn, []⟩, noopStep]
    ∧ Route.build [noopStep] = .ok [noopStep] :=
  ⟨by
    have h := (build_noop_amended [] ⟨"main", noopFn, []⟩).2.2.1 (by decide)
    simpa using h,
   by
    have h := (build_noop_amended [] noopStep).2.1 rfl
    simpa using h⟩

/-! ## C7 -/

/-- C7 counterexample: calling `main` twice on the same route yields two
steps both named `main` with no error raised (`Route.main` pushes
unconditionally and is total), refuting that every step-declaring
operation rejects duplicate names at declaration time. -/
theorem main_duplicate_counterexample :
    List.map Step.name
      (Route.main (Route.main [] (.ok (.raw 0))) (.ok (.raw 1))) =
      ["main", "main"] := rfl

/-- C7 (amended): only `addStep` (and its alias `step`) enforce step-name
uniqueness — declaring an existing name there fails with a RouteError,
and a fresh name is appended; `main` and `validate` push their fixed-name
steps unconditionally, so duplicate `main`/`validator` names are
accepted. -/
theorem stepName_uniqueness_amended (steps : List Step) (nm : String)
    (f g : Except ErrObj Val) :
    (steps.any (fun s => s.name == nm) = true →
      Route.addStep steps (some nm) f = .error routeDupErr)
    ∧ (steps.any (fun s => s.name == nm) = false →
      Route.addStep steps (some nm) f = .ok (steps ++ [⟨nm, f, []⟩]))
    ∧ Route.main steps g = steps ++ [⟨"main", g, []⟩]
    ∧ Route.validate steps g = steps ++ [⟨"validator", g, []⟩] := by
  refine ⟨fun h => ?_, fun h => ?_, rfl, rfl⟩ <;> simp [Route.addStep, h]

/-- C7 witness: the amended theorem applied at concrete inputs — a
duplicate name is rejected by `addStep`, and a fresh name is appended. -/
theorem stepName_uniqueness_amended_witness :
    Route.addStep [⟨"a", noopFn, []⟩] (some "a") noopFn = .error routeDupErr
    ∧ Route.addStep [⟨"a", noopFn, []⟩] (some "b") noopFn =
        .ok [⟨"a", noopFn, []⟩, ⟨"b", noopFn, []⟩] :=
  ⟨(stepName_uniqueness_amended [⟨"a", noopFn, []⟩] "a" noopFn noopFn).1
      (by rfl),
   by
    have h := (stepName_uniqueness_amended [⟨"a", noopFn, []⟩] "b" noopFn
      noopFn).2.1 (by rfl)
    simpa using h⟩

/-! ## C10 -/

/-- C10: registering an `unknown-error` listener while one is already
registered throws; with none registered it succeeds; any other event is
registered unrestricted; consequently at most one `unknown-error` hook
can ever be installed (the listener count never exceeds one). -/
theorem app_on_unknownError (l : List String) (e : String) :
    (1 ≤ l.count "unknown-error" →
      App.on l "unknown-error" =
        .error "You can assign only single listener for the event")
    ∧ (l.count "unknown-error" = 0 →
      App.on l "unknown-error" = .ok (l ++ ["unknown-error"]))
    ∧ (e ≠ "unknown-error" → App.on l e = .ok (l ++ [e]))
    ∧ (∀ l2, l.count "unknown-error" ≤ 1 → App.on l e = .ok l2 →
        l2.count "unknown-error" ≤ 1) := by
  refine ⟨fun h => ?_, fun h => ?_, fun h => ?_, fun l2 h1 h2 => ?_⟩
  · simp [App.on, h]
  · simp [App.on, h]
  · simp [App.on, h]
  · by_cases he : e = "unknown-error"
    · subst he
      by_cases hc : 1 ≤ l.count "unknown-error"
      · simp [App.on, hc] at h2
      · simp [App.on, hc] at h2
        subst h2
        simp [List.count_append]
        omega
    · simp [App.on, he] at h2
      subst h2
      simp [List.count_append, List.count_singleton, he]
      omega

/-- C10 witness: the theorem applied at concrete inputs — the second
`unknown-error` registration fails, the first succeeds, and another event
registers freely even when repeated. -/
theorem app_on_unknownError_witness :
    App.on ["unknown-error"] "unknown-error" =
      .error "You can assign only single listener for the event"
    ∧ App.on [] "unknown-error" = .ok ["unknown-error"]
    ∧ App.on ["error", "error"] "error" = .ok ["error", "error", "error"] :=
  ⟨(app_on_unknownError ["unknown-error"] "error").1 (by decide),
   by
    have h := (app_on_unknownError [] "error").2.1 (by decide)
    simpa using h,
   by
    have h := (app_on_unknownError ["error", "error"] "error").2.2.1
      (by decide)
    simpa using h⟩

/-! ## C8 -/

/-- Writing a key of the responses object and reading it back yields the
written list. -/
theorem lookupResp_setResp_same (rs : List (Nat × List StoredSchema))
    (c : Nat) (l : List StoredSchema) :
    lookupResp (setResp rs c l) c = l := by
  induction rs with
  | nil => simp [setResp, lookupResp]
  | cons p rest ih =>
      obtain ⟨k, v⟩ := p
      by_cases hk : k = c
      · simp [setResp, lookupResp, hk]
      · simp [setResp, lookupResp, hk, ih]

/-- C8: declaring `respondsWith` twice for status 200 leaves exactly the
latest schema registered for status 200 (the `splice(0, 1, schema)`
branch), while declaring it twice for descriptors resolving to the same
non-200 status appends both variants to that status entry. -/
theorem respondsWith_replace_accumulate
    (rs : List (Nat × List StoredSchema)) (d1 d2 d3 d4 : Descriptor)
    (c : Nat) :
    (d1.statusCode = 200 → d2.statusCode = 200 →
      (lookupResp rs 200).length ≤ 1 →
      lookupResp (Route.respondsWith (Route.respondsWith rs d1) d2) 200 =
        [d2.stored])
    ∧ (d3.statusCode = c → d4.statusCode = c → c ≠ 200 →
      lookupResp (Route.respondsWith (Route.respondsWith rs d3) d4) c =
        lookupResp rs c ++ [d3.stored, d4.stored]) := by
  constructor
  · intro h1 h2 hlen
    have e1 : Route.respondsWith rs d1 = setResp rs 200 [d1.stored] := by
      rcases hcur : lookupResp rs 200 with _ | ⟨a, tail⟩
      · simp [Route.respondsWith, h1, hcur]
      · have htail : tail = [] := by
          rw [hcur] at hlen
          cases tail with
          | nil => rfl
          | cons b t => simp at hlen
        subst htail
        simp [Route.respondsWith, h1, hcur]
    have e2 : Route.respondsWith (setResp rs 200 [d1.stored]) d2 =
        setResp (setResp rs 200 [d1.stored]) 200 [d2.stored] := by
      simp [Route.respondsWith, h2, lookupResp_setResp_same]
    rw [e1, e2, lookupResp_setResp_same]
  · intro h3 h4 hc
    have hcb : (c == 200) = false := by simpa using hc
    have e1 : Route.respondsWith rs d3 =
        setResp rs c (lookupResp rs c ++ [d3.stored]) := by
      simp [Route.respondsWith, h3, hcb]
    have e2 : Route.respondsWith
        (setResp rs c (lookupResp rs c ++ [d3.stored])) d4 =
        setResp (setResp rs c (lookupResp rs c ++ [d3.stored])) c
          ((lookupResp rs c ++ [d3.stored]) ++ [d4.stored]) := by
      simp [Route.respondsWith, h4, hcb, lookupResp_setResp_same]
    rw [e1, e2, lookupResp_setResp_same]
    simp

/-- C8 witness: the theorem applied at concrete inputs — two success
schemas leave only the latest at 200, two 500-descriptors accumulate. -/
theorem respondsWith_replace_accumulate_witness :
    lookupResp (Route.respondsWith (Route.respondsWith []
      (.plainSchema 1)) (.plainSchema 2)) 200 = [.plain 2]
    ∧ lookupResp (Route.respondsWith (Route.respondsWith []
        (.errCtor 500)) (.errInst 500)) 500 =
        [.errSchema 500, .errSchema 500] :=
  ⟨(respondsWith_replace_accumulate [] (.plainSchema 1) (.plainSchema 2)
      (.errCtor 500) (.errInst 500) 500).1 rfl rfl (by decide),
   by
    have h := (respondsWith_replace_accumulate [] (.plainSchema 1)
      (.plainSchema 2) (.errCtor 500) (.errInst 500) 500).2 rfl rfl
      (by decide)
    simpa using h⟩

/-! ## C9 -/

/-- Deleting the key `t` from a contentTypes map holding at most one pair
with that key leaves no pair with key `t`. -/
theorem eraseKey_no_key (l : List (String × Nat)) (t : String)
    (h : l.countP (fun q => q.1 == t) ≤ 1) :
    (eraseKey l t).any (fun q => q.1 == t) = false := by
  induction l with
  | nil => rfl
  | cons p rest ih =>
      obtain ⟨k, v⟩ := p
      by_cases hk : k = t
      · subst hk
        rw [List.countP_cons] at h
        simp only [beq_self_eq_true, if_true] at h
        rw [List.any_eq_false]
        intro q hq
        have hq2 : q ∈ rest := by simpa [eraseKey] using hq
        have h0 : rest.countP (fun q => q.1 == k) = 0 := by omega
        simpa using List.countP_eq_zero.mp h0 q hq2
      · have h2 : rest.countP (fun q => q.1 == t) ≤ 1 := by
          rw [List.countP_cons] at h
          omega
        simp [eraseKey, hk, ih h2]

/-- `acceptsContentType` does not change the HTTP method. -/
theorem acceptsCT_method (r : RouteCT) (t : String) (o : Nat) :
    (Route.acceptsContentType r t o).method = r.method := by
  by_cases hm : (lowerStr r.method == "get" || lowerStr r.method == "options")
    = true
  · simp [Route.acceptsContentType, hm]
  · simp only [Bool.not_eq_true] at hm
    cases hp : r.reqDataParser with
    | none => simp [Route.acceptsContentType, hm, hp]
    | some p =>
        by_cases ha : p.contentTypes.any (fun q => q.1 == t) = true
        <;> simp [Route.acceptsContentType, hm, hp, ha]

/-- `rejectsContentType` does not change the HTTP method. -/
theorem rejectsCT_method (r : RouteCT) (t : String) :
    (Route.rejectsContentType r t).method = r.method := by
  cases hp : r.reqDataParser <;> simp [Route.rejectsContentType, hp]

/-- After declaring acceptance of `t` on a body-carrying route, `t` is
accepted. -/
theorem acceptedCT_after_accepts (r : RouteCT) (t : String) (o : Nat)
    (hm : (lowerStr r.method == "get" || lowerStr r.method == "options")
      = false) :
    acceptedCT (Route.acceptsContentType r t o) t = true := by
  cases hp : r.reqDataParser with
  | none => simp [Route.acceptsContentType, hm, hp, acceptedCT]
  | some p =>
      by_cases ha : p.contentTypes.any (fun q => q.1 == t) = true
      · simp [Route.acceptsContentType, hm, hp, ha, acceptedCT]
      · simp only [Bool.not_eq_true] at ha
        simp [Route.acceptsContentType, hm, hp, ha, acceptedCT,
          List.any_append]

/-- Declaring acceptance preserves the at-most-one-pair-per-key invariant
of the contentTypes map. -/
theorem ctKeyCount_after_accepts (r : RouteCT) (t : String) (o : Nat)
    (hcnt : ctKeyCount r t ≤ 1) :
    ctKeyCount (Route.acceptsContentType r t o) t ≤ 1 := by
  by_cases hm : (lowerStr r.method == "get" || lowerStr r.method == "options")
    = true
  · simpa [Route.acceptsContentType, hm] using hcnt
  · simp only [Bool.not_eq_true] at hm
    cases hp : r.reqDataParser with
    | none =>
        simp [Route.acceptsContentType, hm, hp, ctKeyCount,
          List.countP_cons]
    | some p =>
        by_cases ha : p.contentTypes.any (fun q => q.1 == t) = true
        · simp only [ctKeyCount, hp] at hcnt
          simpa [Route.acceptsContentType, hm, hp, ha, ctKeyCount]
            using hcnt
        · have ha2 : p.contentTypes.any (fun q => q.1 == t) = false := by
            simp only [Bool.not_eq_true] at ha
            exact ha
          have h0 : p.contentTypes.countP (fun q => q.1 == t) = 0 := by
            rw [List.countP_eq_zero]
            intro q hq
            exact List.any_eq_false.mp ha2 q hq
          simp [Route.acceptsContentType, hm, hp, ha2, ctKeyCount,
            List.countP_append, List.countP_cons, h0]

/-- After rejecting `t` on a route whose contentTypes map holds `t` at
most once, `t` is no longer accepted. -/
theorem rejects_not_accepted (r : RouteCT) (t : String)
    (hcnt : ctKeyCount r t ≤ 1) :
    acceptedCT (Route.rejectsContentType r t) t = false := by
  cases hp : r.reqDataParser with
  | none => simp [Route.rejectsContentType, hp, acceptedCT]
  | some p =>
      have h := eraseKey_no_key p.contentTypes t
        (by simpa [ctKeyCount, hp] using hcnt)
      simp [Route.rejectsContentType, hp, acceptedCT, h]

/-- C9: on a route with a body-carrying method, accepting `t` makes it
accepted, a subsequent rejection removes it from the accepted set, a
further acceptance restores it, and declaring acceptance of an
already-accepted type leaves the route state entirely unchanged (first
declaration wins). -/
theorem contentType_accept_reject (r : RouteCT) (t : String) (o o2 : Nat)
    (hget : (lowerStr r.method == "get") = false)
    (hopt : (lowerStr r.method == "options") = false)
    (hcnt : ctKeyCount r t ≤ 1) :
    acceptedCT (Route.acceptsContentType r t o) t = true
    ∧ acceptedCT (Route.rejectsContentType
        (Route.acceptsContentType r t o) t) t = false
    ∧ acceptedCT (Route.acceptsContentType (Route.rejectsContentType
        (Route.acceptsContentType r t o) t) t o2) t = true
    ∧ (acceptedCT r t = true → Route.acceptsContentType r t o = r) := by
  have hm : (lowerStr r.method == "get" || lowerStr r.method == "options")
      = false := by simp [hget, hopt]
  refine ⟨acceptedCT_after_accepts r t o hm, ?_, ?_, ?_⟩
  · exact rejects_not_accepted _ t (ctKeyCount_after_accepts r t o hcnt)
  · have hm2 : (lowerStr (Route.rejectsContentType
        (Route.acceptsContentType r t o) t).method == "get" ||
        lowerStr (Route.rejectsContentType (Route.acceptsContentType r t o)
        t).method == "options") = false := by
      rw [rejectsCT_method, acceptsCT_method]
      exact hm
    exact acceptedCT_after_accepts _ t o2 hm2
  · intro hacc
    cases hp : r.reqDataParser with
    | none => simp [acceptedCT, hp] at hacc
    | some p =>
        have ha : p.contentTypes.any (fun q => q.1 == t) = true := by
          simpa [acceptedCT, hp] using hacc
        simp [Route.acceptsContentType, hm, hp, ha]

/-- C9 witness: the theorem applied to a fresh POST route and the
`application/json` content type. -/
theorem contentType_accept_reject_witness :
    acceptedCT (Route.acceptsContentType ⟨"post", [], none⟩
      "application/json" 0) "application/json" = true
    ∧ acceptedCT (Route.rejectsContentType (Route.acceptsContentType
        ⟨"post", [], none⟩ "application/json" 0) "application/json")
        "application/json" = false
    ∧ acceptedCT (Route.acceptsContentType (Route.rejectsContentType
        (Route.acceptsContentType ⟨"post", [], none⟩ "application/json" 0)
        "application/json") "application/json" 1) "application/json"
        = true :=
  ⟨(contentType_accept_reject ⟨"post", [], none⟩ "application/json" 0 1
      (by decide) (by decide) (by decide)).1,
   (contentType_accept_reject ⟨"post", [], none⟩ "application/json" 0 1
      (by decide) (by decide) (by decide)).2.1,
   (contentType_accept_reject ⟨"post", [], none⟩ "application/json" 0 1
      (by decide) (by decide) (by decide)).2.2.1⟩

/-! ## C1 -/

/-- C1 counterexample: a compiled route whose only (user-declared) step is
named `noop` and returns a `Response`.  `build` appends nothing (the last
step is already named `noop`), the chain completes with the `Response` as
its final fulfillment value, and the short-circuit callback is invoked
zero times — refuting that the callback of a returned ShortCircuitResult
always runs exactly once. -/
theorem shortCircuit_noopNamedStep_counterexample :
    Route.build [⟨"noop", .ok (.response 5), []⟩] =
      .ok [⟨"noop", .ok (.response 5), []⟩]
    ∧ routeInvoke "/x" [⟨"noop", .ok (.response 5), []⟩] =
        ([EV.stepRan "noop"], .completed (.response 5))
    ∧ countCb [EV.stepRan "noop"] = 0 := ⟨rfl, rfl, rfl⟩

/-- C1 (amended): over one in-flight request the short-circuit callback is
invoked at most once in total; and whenever a step that has a successor
link returns a ShortCircuitResult, the run stops with exactly the events
so far — the callback runs exactly once, with the response wrapper as its
execution context, and no subsequent step or catch handler executes.  (The
implicit terminal `noop` gives every user step a successor link unless a
user step itself uses the reserved name `noop`.) -/
theorem shortCircuit_amended :
    (∀ (steps : List Step) (r : Except ErrObj Val),
      countCb (runChain steps r).1 ≤ 1)
    ∧ (∀ (s s2 : Step) (rest : List Step) (v : Val) (cb : Nat),
        v.isResp = false → s.fn = .ok (.response cb) →
        runChain (s :: s2 :: rest) (.ok v) =
          ([EV.stepRan s.name, EV.cbInvoked cb true], .shortCircuited)) := by
  constructor
  · exact countCb_runChain
  · intro s s2 rest v cb hv hfn
    cases v with
    | undef => simp [runChain, hfn, applyCatchList_ok]
    | raw n => simp [runChain, hfn, applyCatchList_ok]
    | response c => simp [Val.isResp] at hv

/-- C1 witness: the amended theorem applied to a concrete two-link chain
whose first step returns a `Response`. -/
theorem shortCircuit_amended_witness :
    runChain [⟨"a", .ok (.response 3), []⟩, noopStep] (.ok .undef) =
      ([EV.stepRan "a", EV.cbInvoked 3 true], .shortCircuited)
    ∧ countCb (runChain [⟨"a", .ok (.response 3), []⟩, noopStep]
        (.ok .undef)).1 ≤ 1 :=
  ⟨shortCircuit_amended.2 ⟨"a", .ok (.response 3), []⟩ noopStep [] .undef 3
      rfl rfl,
   shortCircuit_amended.1 [⟨"a", .ok (.response 3), []⟩, noopStep]
      (.ok .undef)⟩

/-! ## C4 -/

/-- Catch entries are tried in declaration order and the first entry whose
filter matches the rejection wins: the entries before it (none matching)
are skipped, its handler receives the error, and the handler's fulfillment
value passes through the remaining entries untouched. -/
theorem applyCatchList_first_match (nm : String) (cs1 : List CatchEntry)
    (c : CatchEntry) (cs2 : List CatchEntry) (e : ErrObj) (v : Val)
    (h1 : ∀ c2 ∈ cs1, c2.filter ∉ e.classes) (h2 : c.filter ∈ e.classes)
    (h3 : c.fn e = .ok v) (i : Nat) :
    applyCatchList nm i (cs1 ++ c :: cs2) (.error e) =
      ([EV.catchRan nm (i + cs1.length) e], .ok v) := by
  induction cs1 generalizing i with
  | nil => simp [applyCatchList, h2, h3, applyCatchList_ok]
  | cons c2 rest ih =>
      have hc2 : c2.filter ∉ e.classes := h1 c2 (by simp)
      have ih2 := ih (fun c3 hm => h1 c3 (List.mem_cons_of_mem _ hm)) (i + 1)
      have heq : i + 1 + rest.length = i + (rest.length + 1) := by omega
      simp only [List.cons_append, applyCatchList, hc2, if_false,
        List.length_cons]
      rw [← heq]
      exact ih2

/-- C4 counterexample: steps `[A, B]` (plus the implicit terminal noop),
A rejects with a TypeError, A's catch is filtered to TypeError and
matches, the handler receives the error — but the handler returns a
`Response`, so step B never executes (no `stepRan "B"` event): the chain
short-circuits instead, refuting that B always still runs after a matched
catch recovery. -/
theorem catch_response_counterexample :
    runChain [⟨"A", .error ⟨["TypeError", "Error"], 0, "x", none, none,
                none⟩,
              [⟨"TypeError", fun _ => .ok (.response 9)⟩]⟩,
              ⟨"B", .ok (.raw 1), []⟩, noopStep] (.ok .undef) =
      ([EV.stepRan "A",
        EV.catchRan "A" 0 ⟨["TypeError", "Error"], 0, "x", none, none,
          none⟩,
        EV.cbInvoked 9 true], .shortCircuited) := by decide

/-- C4 (amended): when step A rejects and the first entry of its catch
list matches the error, the handler receives the error and its fulfillment
value becomes the input of step B's link, and the run continues exactly as
the remaining chain run on that value; catch entries are tried in
declaration order with the first matching filter winning; B's link runs
B's handler whenever its input value is not itself a ShortCircuitResult;
and an error matching no filter of A's catch list propagates unchanged
past a catch-free B to the failure outcome, without running B. -/
theorem catch_recovery_amended :
    (∀ (nA nB : String) (e : ErrObj) (flt : String)
        (h : ErrObj → Except ErrObj Val) (cs : List CatchEntry) (v : Val)
        (fB : Except ErrObj Val) (rest : List Step),
      flt ∈ e.classes → h e = .ok v →
      runChain (⟨nA, .error e, ⟨flt, h⟩ :: cs⟩ :: ⟨nB, fB, []⟩ :: rest)
          (.ok .undef) =
        (EV.stepRan nA :: EV.catchRan nA 0 e ::
            (runChain (⟨nB, fB, []⟩ :: rest) (.ok v)).1,
         (runChain (⟨nB, fB, []⟩ :: rest) (.ok v)).2))
    ∧ (∀ (nm : String) (cs1 : List CatchEntry) (c : CatchEntry)
          (cs2 : List CatchEntry) (e : ErrObj) (v : Val),
        (∀ c2 ∈ cs1, c2.filter ∉ e.classes) → c.filter ∈ e.classes →
        c.fn e = .ok v →
        applyCatchList nm 0 (cs1 ++ c :: cs2) (.error e) =
          ([EV.catchRan nm cs1.length e], .ok v))
    ∧ (∀ (nB : String) (fB : Except ErrObj Val) (rest : List Step)
          (v : Val),
        v.isResp = false →
        (runChain (⟨nB, fB, []⟩ :: rest) (.ok v)).1.head? =
          some (EV.stepRan nB))
    ∧ (∀ (nA nB : String) (e : ErrObj) (cs : List CatchEntry)
          (fB : Except ErrObj Val),
        (∀ c ∈ cs, c.filter ∉ e.classes) →
        runChain [⟨nA, .error e, cs⟩, ⟨nB, fB, []⟩] (.ok .undef) =
          ([EV.stepRan nA], .failed e)) := by
  refine ⟨?_, ?_, ?_, ?_⟩
  · intro nA nB e flt h cs v fB rest hflt hret
    have hac := applyCatchList_first_match nA [] ⟨flt, h⟩ cs e v (by simp)
      hflt hret 0
    simp only [List.nil_append, List.length_nil, Nat.add_zero] at hac
    simp [runChain, hac]
  · intro nm cs1 c cs2 e v hm1 hm2 hm3
    have hac := applyCatchList_first_match nm cs1 c cs2 e v hm1 hm2 hm3 0
    simpa using hac
  · intro nB fB rest v hv
    cases v with
    | undef => simp [runChain]
    | raw n => simp [runChain]
    | response c => simp [Val.isResp] at hv
  · intro nA nB e cs fB hnone
    have hac := applyCatchList_nomatch nA 0 cs e hnone
    simp [runChain, hac, applyCatchList]

/-- C4 witness: the amended theorem applied to a concrete chain — A
rejects with a TypeError, the TypeError-filtered catch recovers with value
`raw 7`, and B (then the terminal noop) still runs. -/
theorem catch_recovery_amended_witness :
    runChain [⟨"A", .error ⟨["TypeError", "Error"], 0, "x", none, none,
                none⟩,
              [⟨"TypeError", fun _ => .ok (.raw 7)⟩]⟩,
              ⟨"B", .ok (.raw 1), []⟩, noopStep] (.ok .undef) =
      ([EV.stepRan "A",
        EV.catchRan "A" 0 ⟨["TypeError", "Error"], 0, "x", none, none,
          none⟩,
        EV.stepRan "B", EV.stepRan "noop"], .completed .undef) := by
  have h := catch_recovery_amended.1 "A" "B"
    ⟨["TypeError", "Error"], 0, "x", none, none, none⟩ "TypeError"
    (fun _ => .ok (.raw 7)) [] (.raw 7) (.ok (.raw 1)) [noopStep]
    (by decide) rfl
  rw [h]
  decide

/-! ## C2 -/

/-- C2 counterexample: a recognized ClientError (a RequestError that is
not a ServiceError) reaching the error handler is rendered with its own
status and body, but its trace contains zero stamp events — the origin
and correlation identifiers are never set on it, refuting that the
handler stamps every recognized ClientError exactly once. -/
theorem errorHandler_clientError_noStamp_counterexample :
    countStamped (errorHandler false "route-1" 7
      (.errObj ⟨["ClientError", "RequestError", "Error"], 404, "not found",
        none, none, none⟩)).1 = 0
    ∧ errorHandler false "route-1" 7
        (.errObj ⟨["ClientError", "RequestError", "Error"], 404,
          "not found", none, none, none⟩) =
        ([], .rendered 404 ⟨["ClientError", "RequestError", "Error"], 404,
          "not found", none, none, none⟩) := by
  constructor
  · simp [errorHandler, countStamped]
  · simp [errorHandler]

/-- C2 (amended): a recognized RequestError is rendered with its own
status code and its own body (message/apiCode serialized by the default
`error-response` listener); the origin and correlation identifiers are
stamped exactly once — but only when the error is the internal-fault
(ServiceError) subtype, in which case the `error` observability event
carries the stamped error; a ClientError is rendered unstamped. -/
theorem errorHandler_requestError_amended (hk : Bool) (ruid : String)
    (uid : Nat) (e : ErrObj) (hreq : "RequestError" ∈ e.classes) :
    ("ServiceError" ∉ e.classes →
      errorHandler hk ruid uid (.errObj e) = ([], .rendered e.code e))
    ∧ ("ServiceError" ∈ e.classes →
      errorHandler hk ruid uid (.errObj e) =
        ([HEv.stamped ruid uid, HEv.emittedError (stampErr e ruid uid)],
         .rendered e.code (stampErr e ruid uid))
      ∧ countStamped [HEv.stamped ruid uid,
          HEv.emittedError (stampErr e ruid uid)] = 1) := by
  constructor
  · intro hs
    simp [errorHandler, hreq, hs]
  · intro hs
    refine ⟨?_, ?_⟩
    · simp [errorHandler, hreq, hs, stampErr]
    · simp [countStamped]

/-- C2 witness: the amended theorem applied to a concrete ClientError
(rendered unstamped with its own 404) and a concrete ServiceError
(stamped exactly once and rendered with 500). -/
theorem errorHandler_requestError_amended_witness :
    errorHandler false "uid-route" 3
      (.errObj ⟨["ClientError", "RequestError", "Error"], 404, "nf",
        none, none, none⟩) =
      ([], .rendered 404 ⟨["ClientError", "RequestError", "Error"], 404,
        "nf", none, none, none⟩)
    ∧ (errorHandler false "uid-route" 3
        (.errObj ⟨["ServiceError", "RequestError", "Error"], 500, "boom",
          none, none, none⟩) =
        ([HEv.stamped "uid-route" 3, HEv.emittedError
          (stampErr ⟨["ServiceError", "RequestError", "Error"], 500,
            "boom", none, none, none⟩ "uid-route" 3)],
         .rendered 500 (stampErr ⟨["ServiceError", "RequestError",
           "Error"], 500, "boom", none, none, none⟩ "uid-route" 3))
      ∧ countStamped [HEv.stamped "uid-route" 3, HEv.emittedError
          (stampErr ⟨["ServiceError", "RequestError", "Error"], 500,
            "boom", none, none, none⟩ "uid-route" 3)] = 1) :=
  ⟨(errorHandler_requestError_amended false "uid-route" 3
      ⟨["ClientError", "RequestError", "Error"], 404, "nf", none, none,
        none⟩ (by decide)).1 (by decide),
   (errorHandler_requestError_amended false "uid-route" 3
      ⟨["ServiceError", "RequestError", "Error"], 500, "boom", none, none,
        none⟩ (by decide)).2 (by decide)⟩

/-! ## C3 -/

/-- C3: the error handler classification is total on degenerate inputs:
`undefined` renders nothing and returns control to the normal path via
`next()`; `null` is wrapped into a ServiceError and recursively
reclassified, rendering as an internal fault with status 500 (the body is
a ServiceError, i.e. an InternalFault); a plain non-Error value falls off
the else-if chain and the handler returns without rendering and without
throwing (the classification function is total). -/
theorem errorHandler_degenerate_inputs (hk : Bool) (ruid : String)
    (uid tag : Nat) :
    errorHandler hk ruid uid .undef = ([], .nextCalled)
    ∧ errorHandler hk ruid uid .null =
        ([HEv.stamped ruid uid,
          HEv.emittedError (stampErr nullServiceError ruid uid)],
         .rendered 500 (stampErr nullServiceError ruid uid))
    ∧ "ServiceError" ∈ (stampErr nullServiceError ruid uid).classes
    ∧ errorHandler hk ruid uid (.plain tag) = ([], .fellThrough) := by
  refine ⟨?_, ?_, ?_, ?_⟩
  · simp [errorHandler]
  · simp [errorHandler, nullServiceError, stampErr]
  · simp [stampErr, nullServiceError]
  · simp [errorHandler]

end BiService
